import Mathlib

/-!
Verification of the geom Vector2 library (src/inc/geom/Vector2.hpp).

The C++ header defines a templated 2-dimensional vector `Vector2<Scalar>`
with componentwise arithmetic operators, comparisons, compound assignment,
and geometric free functions (length, dot, reflect, normalize, refract).

Shallow embedding conventions used here:
- `Vector2 α` mirrors `struct Vector2` with fields `x`, `y`.
- Generic C++ templates become Lean definitions generic over the scalar
  type; machine-specific instantiations are spelt out where overflow or
  conversion semantics matter (unsigned 32-bit arithmetic is `Nat` with
  explicit `% 2 ^ 32`).
- IEEE `double` and `float` values are modelled as rationals; `std::sqrt`
  is an abstract function parameter, so theorems hold for every square
  root and never depend on rounding.
- Compound assignment (`operator+=` etc.) returns both the new value of
  the mutated left operand and the value of the returned reference, as an
  `AssignResult`.
- Compile-time facts (overload resolution, `VectorOpResult` promotion,
  `static_assert(!IsVector<...>)`) are modelled on a small datatype of
  scalar kinds and operand shapes; a failing `static_assert` is `none`.
-/

namespace Geom

/-- Vector2 from the header: two scalar components x and y. -/
structure Vector2 (α : Type) where
  x : α
  y : α
deriving DecidableEq

/-- Componentwise conversion of a vector, mirroring the converting
constructor and converting assignment (`x(source.x), y(source.y)` with a
static cast). -/
def vmap {α β : Type} (f : α → β) (v : Vector2 α) : Vector2 β :=
  ⟨f v.x, f v.y⟩

/-- Binary operator+ on two vectors: componentwise sum. -/
def vadd {α : Type} [Add α] (lhs rhs : Vector2 α) : Vector2 α :=
  ⟨lhs.x + rhs.x, lhs.y + rhs.y⟩

/-- Binary operator- on two vectors: componentwise difference. -/
def vsub {α : Type} [Sub α] (lhs rhs : Vector2 α) : Vector2 α :=
  ⟨lhs.x - rhs.x, lhs.y - rhs.y⟩

/-- Piecewise operator* on two vectors: componentwise product. -/
def vmul {α : Type} [Mul α] (lhs rhs : Vector2 α) : Vector2 α :=
  ⟨lhs.x * rhs.x, lhs.y * rhs.y⟩

/-- Piecewise operator/ on two vectors: componentwise quotient. -/
def vdiv {α : Type} [Div α] (lhs rhs : Vector2 α) : Vector2 α :=
  ⟨lhs.x / rhs.x, lhs.y / rhs.y⟩

/-- Scalar multiplication operator*(vector, scalar): the header computes
`Vector2<Result>(lhs.x * rhs, lhs.y * rhs)`. -/
def smulR {α : Type} [Mul α] (lhs : Vector2 α) (rhs : α) : Vector2 α :=
  ⟨lhs.x * rhs, lhs.y * rhs⟩

/-- Scalar multiplication operator*(scalar, vector): the header computes
`Vector2<Result>(rhs.x * lhs, rhs.y * lhs)`. -/
def smulL {α : Type} [Mul α] (lhs : α) (rhs : Vector2 α) : Vector2 α :=
  ⟨rhs.x * lhs, rhs.y * lhs⟩

/-- Scalar division operator/(vector, scalar): componentwise. -/
def sdiv {α : Type} [Div α] (lhs : Vector2 α) (rhs : α) : Vector2 α :=
  ⟨lhs.x / rhs, lhs.y / rhs⟩

/-- Unary operator-(): a new vector with both components negated, given
the scalar kind's negation. The operand is not mutated (the member
returns a freshly constructed `Vector2<Scalar>(-x, -y)`). -/
def vnegBy {α : Type} (neg : α → α) (v : Vector2 α) : Vector2 α :=
  ⟨neg v.x, neg v.y⟩

/-- dot: `lhs.x * rhs.x + lhs.y * rhs.y`. -/
def dot {α : Type} [Mul α] [Add α] (lhs rhs : Vector2 α) : α :=
  lhs.x * rhs.x + lhs.y * rhs.y

/-- operator==: both components equal. -/
def veq {α : Type} [DecidableEq α] (lhs rhs : Vector2 α) : Bool :=
  decide (lhs.x = rhs.x) && decide (lhs.y = rhs.y)

/-- operator!=: negation of operator==. -/
def vne {α : Type} [DecidableEq α] (lhs rhs : Vector2 α) : Bool :=
  !(veq lhs rhs)

/-- operator>: both components of lhs strictly greater. -/
def vgt {α : Type} [LinearOrder α] (lhs rhs : Vector2 α) : Bool :=
  decide (lhs.x > rhs.x) && decide (lhs.y > rhs.y)

/-- operator>=: both components of lhs greater or equal. -/
def vge {α : Type} [LinearOrder α] (lhs rhs : Vector2 α) : Bool :=
  decide (lhs.x ≥ rhs.x) && decide (lhs.y ≥ rhs.y)

/-- operator<: both components of lhs strictly smaller. -/
def vlt {α : Type} [LinearOrder α] (lhs rhs : Vector2 α) : Bool :=
  decide (lhs.x < rhs.x) && decide (lhs.y < rhs.y)

/-- operator<=: both components of lhs smaller or equal. -/
def vle {α : Type} [LinearOrder α] (lhs rhs : Vector2 α) : Bool :=
  decide (lhs.x ≤ rhs.x) && decide (lhs.y ≤ rhs.y)

/-- Result of a compound assignment: the new value stored in the left
operand, and the value seen through the returned reference (`*this`). -/
structure AssignResult (α : Type) where
  newSelf : Vector2 α
  returned : Vector2 α
deriving DecidableEq

/-- operator+=: `return *this = *this + rhs;` — assign the binary sum,
then return the mutated left operand. -/
def addAssign {α : Type} [Add α] (self rhs : Vector2 α) : AssignResult α :=
  let r := vadd self rhs
  ⟨r, r⟩

/-- operator-=: `return *this = *this - rhs;`. -/
def subAssign {α : Type} [Sub α] (self rhs : Vector2 α) : AssignResult α :=
  let r := vsub self rhs
  ⟨r, r⟩

/-! Unsigned 32-bit scalar arithmetic (the `uint32_t` instantiation of
the templates): values are naturals below `2 ^ 32`, operations wrap. -/

/-- uint32_t multiplication: wraps modulo 2^32. -/
def u32mul (a b : Nat) : Nat :=
  a * b % 2 ^ 32

/-- uint32_t addition: wraps modulo 2^32. -/
def u32add (a b : Nat) : Nat :=
  (a + b) % 2 ^ 32

/-- uint32_t unary minus: `-a` is `2^32 - a` modulo 2^32. -/
def u32neg (a : Nat) : Nat :=
  (2 ^ 32 - a) % 2 ^ 32

/-- operator-() instantiated at Scalar = uint32_t. -/
def vnegU32 (v : Vector2 Nat) : Vector2 Nat :=
  vnegBy u32neg v

/-! Geometric free functions. IEEE doubles and floats are modelled as
rationals and `std::sqrt` as an abstract parameter. -/

/-- length, generic template instantiated at Scalar = uint32_t: the
header computes `std::sqrt((double)(v.x * v.x + v.y * v.y))` — the
products and the sum are evaluated in the scalar kind (wrapping for
uint32_t) and only the final sum is cast to double. -/
def lengthU32 (sqrt : ℚ → ℚ) (v : Vector2 Nat) : ℚ :=
  sqrt ((u32add (u32mul v.x v.x) (u32mul v.y v.y) : Nat) : ℚ)

/-- Modelled from the spec: the documented behaviour of `length` on a
non-floating vector, where both components are first promoted to double
precision (converted to a double vector) and the sum of squares is then
computed in double. This follows the words of the spec and of the
header's own doc comment, for comparison with `lengthU32`. -/
def lengthU32PromoteFirst (sqrt : ℚ → ℚ) (v : Vector2 Nat) : ℚ :=
  sqrt ((v.x : ℚ) * (v.x : ℚ) + (v.y : ℚ) * (v.y : ℚ))

/-- length, float overload: `std::sqrt(f.x * f.x + f.y * f.y)` computed
and returned in single precision (values modelled as rationals, the
single-precision square root abstract). -/
def lengthF (sqrt : ℚ → ℚ) (v : Vector2 ℚ) : ℚ :=
  sqrt (v.x * v.x + v.y * v.y)

/-- normalize, generic template instantiated at Scalar = uint32_t with
the default RType = double: `source / length(source)`, where the scalar
division operator promotes each component to double before dividing. -/
def normalizeU32 (sqrt : ℚ → ℚ) (v : Vector2 Nat) : Vector2 ℚ :=
  sdiv (vmap (fun a : Nat => (a : ℚ)) v) (lengthU32 sqrt v)

/-- normalize, float overload: `source / length(source)` staying in
single precision. -/
def normalizeF (sqrt : ℚ → ℚ) (v : Vector2 ℚ) : Vector2 ℚ :=
  sdiv v (lengthF sqrt v)

/-- reflect in a single scalar kind: `i - ((2 * dot(i, n)) * n)` where
the outer product is the scalar-times-vector overload. -/
def reflect {α : Type} [Ring α] (i n : Vector2 α) : Vector2 α :=
  vsub i (smulL (2 * dot i n) n)

/-- reflect instantiated at an integer argument vector and a double
normal: the header first converts both arguments to the promoted result
kind (`const Vector2<Result> i(vec); const Vector2<Result> n(normal);`)
and then evaluates the formula in that kind. -/
def reflectIntDouble (vec : Vector2 ℤ) (normal : Vector2 ℚ) : Vector2 ℚ :=
  reflect (vmap (fun a : ℤ => (a : ℚ)) vec) normal

/-- refract: computes `dot_ni = dot(n, i)`,
`k = 1.0 - eta * eta * (1.0 - dot_ni * dot_ni)`; if `k < 0.0` returns
`Vector2<R>(0.0, 0.0)`, else `eta * i - (eta * dot_ni + sqrt(k)) * n`
(both products are the scalar-times-vector overload). -/
def refract {α : Type} [LinearOrderedField α] (sqrt : α → α)
    (i n : Vector2 α) (eta : α) : Vector2 α :=
  let dotni := dot n i
  let k := 1 - eta * eta * (1 - dotni * dotni)
  if k < 0 then ⟨0, 0⟩
  else vsub (smulL eta i) (smulL (eta * dotni + sqrt k) n)

/-! Conversion between scalar kinds. The converting constructor and the
converting assignment both apply the target kind's standard conversion
componentwise; for double source and 32/64-bit signed integer target
this is C++ truncation toward zero, i.e. T-division of numerator by
denominator. -/

/-- Standard C++ conversion double → signed integer: truncation toward
zero (`Int.tdiv` is T-division). -/
def doubleToInt (q : ℚ) : ℤ :=
  q.num.tdiv (q.den : ℤ)

/-- Converting constructor / converting assignment from a double vector
to a signed-integer vector: componentwise `static_cast`. -/
def toIntVec (v : Vector2 ℚ) : Vector2 ℤ :=
  vmap doubleToInt v

/-! Compile-time model: scalar kinds, operand shapes, the promotion
trait and the static assertions, for the claims about overload
selection and result kinds. -/

/-- The six scalar kinds the header instantiates (Vec2i, Vec2u, Vec2l,
Vec2ul, Vec2f, Vec2d). -/
inductive SKind
  | i32
  | u32
  | i64
  | u64
  | f32
  | f64
deriving DecidableEq, Fintype

/-- Whether a scalar kind is floating point (std::is_floating_point). -/
def isFloating : SKind → Bool
  | SKind.f32 => true
  | SKind.f64 => true
  | _ => false

/-- Conversion rank of a scalar kind in the usual C++ arithmetic
conversions, used to order kinds for promotion. -/
def convRank : SKind → Nat
  | SKind.i32 => 0
  | SKind.u32 => 1
  | SKind.i64 => 2
  | SKind.u64 => 3
  | SKind.f32 => 4
  | SKind.f64 => 5

/-- Modelled from the spec: `VectorOpResult` from VectorTraits.hpp is
not under src/; the spec describes ScalarPromotionRules as the host
language's usual numeric common-type promotion (smaller integer →
larger integer → float → double), i.e. the kind of larger conversion
rank wins. -/
def promote (a b : SKind) : SKind :=
  if convRank a ≤ convRank b then b else a

/-- The result scalar kind of reflect: `VectorOpResult` applied to the
two argument kinds. -/
def reflectKind (l r : SKind) : SKind :=
  promote l r

/-- The result scalar kind of normalize: the generic template defaults
RType to double, and the float overload keeps float. -/
def normalizeKind (k : SKind) : SKind :=
  if k = SKind.f32 then SKind.f32 else SKind.f64

/-- Shape of an operand at overload-resolution time: a raw scalar of
some kind, or a Vector2 of some scalar kind. -/
inductive Operand
  | scalar (k : SKind)
  | vec2 (k : SKind)
deriving DecidableEq

/-- The scalar kind carried by an operand. -/
def kindOf : Operand → SKind
  | Operand.scalar k => k
  | Operand.vec2 k => k

/-- The IsVector trait: specialised to true for Vector2 (end of the
header); the base template (modelled from the spec, VectorTraits.hpp is
not under src/) is false for raw scalar kinds. -/
def isVectorOperand : Operand → Bool
  | Operand.vec2 _ => true
  | Operand.scalar _ => false

/-- operator*(Vector2<LhsType>, RhsType) — the scalar-multiply
overload. Its body static_asserts `!IsVector<RhsType>` with the message
"Multiplication not defined for the given types"; instantiating it with
a vector right operand is a compile error, modelled as `none`. -/
def scalarMulVS (l : SKind) (rhs : Operand) : Option SKind :=
  if isVectorOperand rhs then none
  else some (promote l (kindOf rhs))

/-- operator*(LhsType, Vector2<RhsType>) — the other scalar-multiply
overload, static_asserting `!IsVector<LhsType>`. -/
def scalarMulSV (lhs : Operand) (r : SKind) : Option SKind :=
  if isVectorOperand lhs then none
  else some (promote (kindOf lhs) r)

/-- operator/(Vector2<LhsType>, RhsType) — the scalar-divide overload,
static_asserting `!IsVector<RhsType>` with the message "Division not
defined for the given types". -/
def scalarDivVS (l : SKind) (rhs : Operand) : Option SKind :=
  if isVectorOperand rhs then none
  else some (promote l (kindOf rhs))

/-- C++ overload resolution for `*this * rhs` inside operator*= on a
`Vector2<l>`: when rhs is a `Vector2<r>` the dedicated piecewise
operator*(Vector2, Vector2) is more specialised and is selected (the
scalar overload is never instantiated); when rhs is a raw scalar the
scalar-multiply overload is used. -/
def resolveMulAssign (l : SKind) (rhs : Operand) : Option SKind :=
  match rhs with
  | Operand.vec2 r => some (promote l r)
  | Operand.scalar s => scalarMulVS l (Operand.scalar s)

/-- C++ overload resolution for `*this / rhs` inside operator/=,
analogous to `resolveMulAssign`. -/
def resolveDivAssign (l : SKind) (rhs : Operand) : Option SKind :=
  match rhs with
  | Operand.vec2 r => some (promote l r)
  | Operand.scalar s => scalarDivVS l (Operand.scalar s)

/-- operator*= with a Vector2 right operand (same kind, modelled over
ℤ): delegates to `*this * rhs`, which resolves to the piecewise
product. -/
def mulAssignVec (self rhs : Vector2 ℤ) : AssignResult ℤ :=
  let r := vmul self rhs
  ⟨r, r⟩

/-- operator*= with a raw scalar right operand (modelled over ℤ):
delegates to the scalar-multiply overload. -/
def mulAssignScalar (self : Vector2 ℤ) (s : ℤ) : AssignResult ℤ :=
  let r := smulR self s
  ⟨r, r⟩

/-- operator/= with a Vector2 right operand (modelled over ℚ):
delegates to `*this / rhs`, which resolves to the piecewise
quotient. -/
def divAssignVec (self rhs : Vector2 ℚ) : AssignResult ℚ :=
  let r := vdiv self rhs
  ⟨r, r⟩

/-- operator/= with a raw scalar right operand (modelled over ℚ). -/
def divAssignScalar (self : Vector2 ℚ) (s : ℚ) : AssignResult ℚ :=
  let r := sdiv self s
  ⟨r, r⟩

/-! Theorems. -/

/-- C7: there exist vectors a = (1,5) and b = (5,1) for which a > b,
a < b and a == b are all false at once: the componentwise comparisons
form a partial order, not a total or lexicographic one. -/
theorem comparisons_partial_order :
    vgt (⟨1, 5⟩ : Vector2 ℤ) ⟨5, 1⟩ = false ∧
    vlt (⟨1, 5⟩ : Vector2 ℤ) ⟨5, 1⟩ = false ∧
    veq (⟨1, 5⟩ : Vector2 ℤ) ⟨5, 1⟩ = false := by
  refine ⟨?_, ?_, ?_⟩ <;> decide

/-- C8: operator+= assigns to the left operand exactly the binary sum
of the old left operand and the right operand, and the returned
reference denotes the mutated left operand; concretely
(1,2) += (2,1) mutates the left operand to (3,3). -/
theorem addAssign_assigns_binary_sum :
    (∀ (α : Type) [Add α] (v w : Vector2 α),
        (addAssign v w).newSelf = vadd v w ∧
        (addAssign v w).returned = (addAssign v w).newSelf) ∧
    (addAssign (⟨1, 2⟩ : Vector2 ℤ) ⟨2, 1⟩).newSelf = ⟨3, 3⟩ ∧
    (addAssign (⟨1, 2⟩ : Vector2 ℤ) ⟨2, 1⟩).returned = ⟨3, 3⟩ := by
  exact ⟨fun α _ v w => ⟨rfl, rfl⟩, by decide, by decide⟩

/-- C10: unary negation yields the componentwise negation as a fresh
value (the operand, a value, is untouched); on uint32_t each component
wraps modulo 2^32: the negated component is the additive inverse modulo
2^32, and -(1, 0) is (2^32 - 1, 0). -/
theorem vnegU32_wraps :
    (∀ v : Vector2 Nat, v.x < 2 ^ 32 → v.y < 2 ^ 32 →
        (vnegU32 v).x = (2 ^ 32 - v.x) % 2 ^ 32 ∧
        (vnegU32 v).y = (2 ^ 32 - v.y) % 2 ^ 32 ∧
        (v.x + (vnegU32 v).x) % 2 ^ 32 = 0 ∧
        (v.y + (vnegU32 v).y) % 2 ^ 32 = 0) ∧
    vnegU32 ⟨1, 0⟩ = ⟨4294967295, 0⟩ := by
  have key : ∀ a : Nat, a < 2 ^ 32 → (a + (2 ^ 32 - a) % 2 ^ 32) % 2 ^ 32 = 0 := by
    intro a ha
    have h32 : (2 : Nat) ^ 32 = 4294967296 := by norm_num
    rw [h32] at ha ⊢
    omega
  refine ⟨fun v hx hy => ⟨rfl, rfl, key v.x hx, key v.y hy⟩, by decide⟩

/-- C10 witness: the general statement applied at the concrete vector
(1, 0). -/
theorem vnegU32_wraps_witness :
    (1 : Nat) < 2 ^ 32 ∧ (0 : Nat) < 2 ^ 32 ∧
    ((1 : Nat) + (vnegU32 ⟨1, 0⟩).x) % 2 ^ 32 = 0 := by
  refine ⟨by decide, by decide, ?_⟩
  exact (vnegU32_wraps.1 ⟨1, 0⟩ (by decide) (by decide)).2.2.1

/-- C5 counterexample: operator*= with a Vector2 right operand is not
rejected — overload resolution inside the delegated `*this * rhs`
selects the dedicated piecewise operator*(Vector2, Vector2), so the
compound assignment compiles and performs a piecewise product, e.g.
(2,3) *= (4,5) stores (8,15). -/
theorem mulAssign_vector_not_rejected_cex :
    resolveMulAssign SKind.i32 (Operand.vec2 SKind.i32) = some SKind.i32 ∧
    resolveDivAssign SKind.f64 (Operand.vec2 SKind.f64) = some SKind.f64 ∧
    (mulAssignVec ⟨2, 3⟩ ⟨4, 5⟩).newSelf = ⟨8, 15⟩ := by
  exact ⟨rfl, rfl, by decide⟩

/-- C5 amended: operator*= and operator/= delegate to the binary
operator; a scalar right operand scales componentwise, while a Vector2
right operand is accepted and performs the piecewise vector-vector
operation (it is not rejected by any type constraint). -/
theorem mulAssign_semantics :
    (∀ l r : SKind,
        resolveMulAssign l (Operand.vec2 r) = some (promote l r) ∧
        resolveDivAssign l (Operand.vec2 r) = some (promote l r)) ∧
    (∀ self rhs : Vector2 ℤ,
        (mulAssignVec self rhs).newSelf = ⟨self.x * rhs.x, self.y * rhs.y⟩ ∧
        (mulAssignVec self rhs).returned = (mulAssignVec self rhs).newSelf) ∧
    (∀ (self : Vector2 ℤ) (s : ℤ),
        (mulAssignScalar self s).newSelf = ⟨self.x * s, self.y * s⟩) ∧
    (∀ self rhs : Vector2 ℚ,
        (divAssignVec self rhs).newSelf = ⟨self.x / rhs.x, self.y / rhs.y⟩) ∧
    (∀ (self : Vector2 ℚ) (s : ℚ),
        (divAssignScalar self s).newSelf = ⟨self.x / s, self.y / s⟩) :=
  ⟨fun _ _ => ⟨rfl, rfl⟩, fun _ _ => ⟨rfl, rfl⟩, fun _ _ => rfl,
    fun _ _ => rfl, fun _ _ => rfl⟩

/-- C6: instantiating a scalar-multiply or scalar-divide overload with
a "scalar" operand that is itself a vector kind hits the IsVector
static assertion and fails to compile (modelled as none); the piecewise
product is reachable only through the dedicated vector-vector overload,
which resolution selects for a Vector2 right operand, never through the
scalar overload. -/
theorem scalar_overload_rejects_vector (l : SKind) (rhs : Operand)
    (h : isVectorOperand rhs = true) :
    scalarMulVS l rhs = none ∧
    scalarMulSV rhs l = none ∧
    scalarDivVS l rhs = none ∧
    resolveMulAssign l rhs = some (promote l (kindOf rhs)) := by
  refine ⟨?_, ?_, ?_, ?_⟩
  · simp [scalarMulVS, h]
  · simp [scalarMulSV, h]
  · simp [scalarDivVS, h]
  · cases rhs with
    | scalar k => simp [isVectorOperand] at h
    | vec2 k => rfl

/-- C6 witness: the rejection at the concrete instantiation of an i32
vector times an f64 vector passed through the scalar overloads. -/
theorem scalar_overload_rejects_vector_witness :
    scalarMulVS SKind.i32 (Operand.vec2 SKind.f64) = none ∧
    scalarDivVS SKind.i32 (Operand.vec2 SKind.f64) = none := by
  have h := scalar_overload_rejects_vector SKind.i32 (Operand.vec2 SKind.f64) rfl
  exact ⟨h.1, h.2.2.1⟩

/-- C3 counterexample: for two i32 vectors the promoted result kind of
reflect is i32, which is not a floating-point kind — the claim that the
result kind is floating even for two integer inputs fails. -/
theorem reflect_integer_kind_cex :
    reflectKind SKind.i32 SKind.i32 = SKind.i32 ∧
    isFloating (reflectKind SKind.i32 SKind.i32) = false :=
  ⟨rfl, rfl⟩

/-- C3 amended: reflect converts both inputs to the promoted result
kind and returns incident - 2 * dot(incident, normal) * normal computed
in that kind; the result kind is the common promoted kind of the two
inputs, which is floating exactly when at least one input kind is
floating (for two integer vectors it is an integer kind). -/
theorem reflect_formula :
    (∀ (vec : Vector2 ℤ) (n : Vector2 ℚ),
        reflectIntDouble vec n =
          ⟨(vec.x : ℚ) - 2 * ((vec.x : ℚ) * n.x + (vec.y : ℚ) * n.y) * n.x,
           (vec.y : ℚ) - 2 * ((vec.x : ℚ) * n.x + (vec.y : ℚ) * n.y) * n.y⟩) ∧
    (∀ i n : Vector2 ℚ,
        reflect i n = ⟨i.x - 2 * dot i n * n.x, i.y - 2 * dot i n * n.y⟩) ∧
    (∀ l r : SKind, isFloating (reflectKind l r) = (isFloating l || isFloating r)) := by
  refine ⟨fun vec n => ?_, fun i n => ?_, by decide⟩
  · simp only [reflectIntDouble, reflect, vsub, smulL, dot, vmap, Vector2.mk.injEq]
    constructor <;> ring
  · simp only [reflect, vsub, smulL, dot, Vector2.mk.injEq]
    constructor <;> ring

/-- C4: normalize divides the vector componentwise by its own length,
and the result scalar kind is double except for a single-precision
input, which stays single-precision. -/
theorem normalize_divides_by_length :
    (∀ (sqrt : ℚ → ℚ) (v : Vector2 Nat),
        normalizeU32 sqrt v =
          ⟨(v.x : ℚ) / lengthU32 sqrt v, (v.y : ℚ) / lengthU32 sqrt v⟩) ∧
    (∀ (sqrt : ℚ → ℚ) (v : Vector2 ℚ),
        normalizeF sqrt v = ⟨v.x / lengthF sqrt v, v.y / lengthF sqrt v⟩) ∧
    (∀ k, normalizeKind k = SKind.f32 ∨ normalizeKind k = SKind.f64) ∧
    (∀ k, normalizeKind k = SKind.f32 ↔ k = SKind.f32) :=
  ⟨fun _ _ => rfl, fun _ _ => rfl, by decide, by decide⟩

/-- C1: refract computes k = 1 - eta^2 * (1 - dot(n,i)^2) in the common
result kind; when k < 0 (total internal reflection) it returns the
exact zero vector, otherwise eta*i - (eta*dot(n,i) + sqrt(k)) * n. -/
theorem refract_formula_tir {α : Type} [LinearOrderedField α]
    (sqrt : α → α) (i n : Vector2 α) (eta : α) :
    (1 - eta ^ 2 * (1 - dot n i ^ 2) < 0 → refract sqrt i n eta = ⟨0, 0⟩) ∧
    (0 ≤ 1 - eta ^ 2 * (1 - dot n i ^ 2) →
      refract sqrt i n eta =
        ⟨eta * i.x - (eta * dot n i + sqrt (1 - eta ^ 2 * (1 - dot n i ^ 2))) * n.x,
         eta * i.y - (eta * dot n i + sqrt (1 - eta ^ 2 * (1 - dot n i ^ 2))) * n.y⟩) := by
  have hk : 1 - eta * eta * (1 - dot n i * dot n i)
      = 1 - eta ^ 2 * (1 - dot n i ^ 2) := by ring
  constructor
  · intro h
    simp only [refract, hk]
    rw [if_pos h]
  · intro h
    simp only [refract, hk]
    rw [if_neg (not_lt.2 h)]
    simp only [vsub, smulL, Vector2.mk.injEq]
    constructor <;> ring

/-- C1 witness: with incident (1,0), normal (0,1) and eta = 2 the
quantity k is -3 < 0, so refract returns the exact zero vector; with
eta = 0 we have k = 1 ≥ 0 and the general formula applies. -/
theorem refract_formula_tir_witness :
    refract (fun q : ℚ => q) ⟨1, 0⟩ ⟨0, 1⟩ 2 = ⟨0, 0⟩ ∧
    refract (fun q : ℚ => q) ⟨1, 0⟩ ⟨0, 1⟩ 0 =
      ⟨0 * 1 - (0 * dot (⟨0, 1⟩ : Vector2 ℚ) ⟨1, 0⟩ +
          (1 - 0 ^ 2 * (1 - dot (⟨0, 1⟩ : Vector2 ℚ) ⟨1, 0⟩ ^ 2))) * 0,
       0 * 0 - (0 * dot (⟨0, 1⟩ : Vector2 ℚ) ⟨1, 0⟩ +
          (1 - 0 ^ 2 * (1 - dot (⟨0, 1⟩ : Vector2 ℚ) ⟨1, 0⟩ ^ 2))) * 1⟩ := by
  constructor
  · exact (refract_formula_tir (fun q : ℚ => q) ⟨1, 0⟩ ⟨0, 1⟩ 2).1 (by norm_num [dot])
  · exact (refract_formula_tir (fun q : ℚ => q) ⟨1, 0⟩ ⟨0, 1⟩ 0).2 (by norm_num [dot])

/-- C2, evaluation at the failing input: the length template squares
and sums in the scalar kind before the cast to double, so for the
uint32_t vector (65536, 0) the sum of squares wraps to 0 and length
computes sqrt 0, whereas the documented promote-components-first
computation yields sqrt (65536^2) = sqrt 4294967296. -/
theorem lengthU32_overflow_eval (sqrt : ℚ → ℚ) :
    lengthU32 sqrt ⟨65536, 0⟩ = sqrt 0 ∧
    lengthU32PromoteFirst sqrt ⟨65536, 0⟩ = sqrt 4294967296 ∧
    u32add (u32mul 65536 65536) (u32mul 0 0) = 0 ∧
    (∀ (s : ℚ → ℚ) (v : Vector2 ℚ), lengthF s v = s (v.x * v.x + v.y * v.y)) := by
    refine ⟨?_, ?_, by decide, fun s v => rfl⟩
    · have h : u32add (u32mul 65536 65536) (u32mul 0 0) = 0 := by decide
      simp [lengthU32, h]
    · have h : ((65536 : ℚ) * 65536) = 4294967296 := by norm_num
      simp [lengthU32PromoteFirst, h]

/-- Truncation toward zero of a rational: T-division of the numerator
by the denominator equals the floor for nonnegative arguments and the
ceiling for negative ones. -/
theorem doubleToInt_eq_floor_or_ceil (q : ℚ) :
    doubleToInt q = if 0 ≤ q then ⌊q⌋ else ⌈q⌉ := by
  by_cases h : 0 ≤ q
  · rw [if_pos h, Rat.floor_def, doubleToInt,
      Int.tdiv_eq_ediv (Rat.num_nonneg.2 h) (by positivity)]
  · rw [if_neg h]
    have h1 : 0 ≤ (-q).num := Rat.num_nonneg.2 (by linarith [not_le.1 h])
    have h2 : doubleToInt q = -doubleToInt (-q) := by
      simp only [doubleToInt, Rat.neg_num, Rat.neg_den, Int.neg_tdiv, neg_neg]
    rw [h2, doubleToInt, Int.tdiv_eq_ediv h1 (by positivity), ← Rat.floor_def,
      Int.floor_neg, neg_neg]

/-- C9: converting a double vector to a signed-integer vector converts
each component with the standard conversion, truncating toward zero and
never rounding: the result is the floor of nonnegative components and
the ceiling of negative ones; (1.1, 2.2) converts to (1, 2) and
(-1.1, -2.2) to (-1, -2). -/
theorem convert_truncates_toward_zero :
    (∀ v : Vector2 ℚ,
        toIntVec v = ⟨if 0 ≤ v.x then ⌊v.x⌋ else ⌈v.x⌉,
                      if 0 ≤ v.y then ⌊v.y⌋ else ⌈v.y⌉⟩) ∧
    toIntVec ⟨11 / 10, 22 / 10⟩ = ⟨1, 2⟩ ∧
    toIntVec ⟨-(11 / 10), -(22 / 10)⟩ = ⟨-1, -2⟩ := by
  have hgen : ∀ v : Vector2 ℚ,
      toIntVec v = ⟨if 0 ≤ v.x then ⌊v.x⌋ else ⌈v.x⌉,
                    if 0 ≤ v.y then ⌊v.y⌋ else ⌈v.y⌉⟩ := by
    intro v
    simp only [toIntVec, vmap, doubleToInt_eq_floor_or_ceil]
  refine ⟨hgen, ?_, ?_⟩
  · rw [hgen]
    have hx : ⌊(11 / 10 : ℚ)⌋ = 1 := Int.floor_eq_iff.2 (by norm_num)
    have hy : ⌊(22 / 10 : ℚ)⌋ = 2 := Int.floor_eq_iff.2 (by norm_num)
    rw [if_pos (show (0 : ℚ) ≤ 11 / 10 by norm_num),
      if_pos (show (0 : ℚ) ≤ 22 / 10 by norm_num), hx, hy]
  · rw [hgen]
    have hx : ⌈(-(11 / 10) : ℚ)⌉ = -1 := Int.ceil_eq_iff.2 (by norm_num)
    have hy : ⌈(-(22 / 10) : ℚ)⌉ = -2 := Int.ceil_eq_iff.2 (by norm_num)
    rw [if_neg (show ¬(0 : ℚ) ≤ -(11 / 10) by norm_num),
      if_neg (show ¬(0 : ℚ) ≤ -(22 / 10) by norm_num), hx, hy]

end Geom
